import Mathlib

/-!
Verification of the SQL Result Grading Engine of this repository: the
statement sanitizer and the read-only guard (src/llm_Sql.py), and the result
grader (src/evaluator.py).  Python strings are embedded as Lean String
(sequences of Unicode scalar values); the pandas and sqlite layers are
embedded as explicit table values and an execution environment.  Exact
rationals stand in for Python floats, so float rounding is modelled exactly
at 6 decimal digits.
-/

/-! ## Character classes used by the Python runtime -/

/-- Whitespace set of Python: matched by the regex class for whitespace and
stripped by str.strip (tab, newline, vertical tab, form feed, carriage
return, file to unit separators, space, next line, no-break space, ogham
space mark, the en quad to hair space range, line and paragraph separators,
narrow no-break space, medium mathematical space, ideographic space). -/
def isPySpace (c : Char) : Bool :=
  c.val == 0x09 || c.val == 0x0A || c.val == 0x0B || c.val == 0x0C ||
  c.val == 0x0D || c.val == 0x1C || c.val == 0x1D || c.val == 0x1E ||
  c.val == 0x1F || c.val == 0x20 || c.val == 0x85 || c.val == 0xA0 ||
  c.val == 0x1680 || (0x2000 ≤ c.val && c.val ≤ 0x200A) ||
  c.val == 0x2028 || c.val == 0x2029 || c.val == 0x202F ||
  c.val == 0x205F || c.val == 0x3000

/-- Line boundaries recognized by str.splitlines, apart from the two
character sequence carriage return then newline, which is handled in
pySplitlinesAux. -/
def isLineBound (c : Char) : Bool :=
  c.val == 0x0A || c.val == 0x0B || c.val == 0x0C || c.val == 0x0D ||
  c.val == 0x1C || c.val == 0x1D || c.val == 0x1E || c.val == 0x85 ||
  c.val == 0x2028 || c.val == 0x2029

/-- Word characters of the regex word-boundary class: letters, digits and
underscore (ASCII part; identifiers in the grading SQL are ASCII). -/
def isWordChar (c : Char) : Bool :=
  (0x41 ≤ c.val && c.val ≤ 0x5A) || (0x61 ≤ c.val && c.val ≤ 0x7A) ||
  (0x30 ≤ c.val && c.val ≤ 0x39) || c.val == 0x5F

/-- Zero-width and byte-order-mark characters removed by the regex
substitution in src/evaluator.py line 9 (U+200B to U+200D and U+FEFF). -/
def isZeroWidth (c : Char) : Bool :=
  c.val == 0x200B || c.val == 0x200C || c.val == 0x200D || c.val == 0xFEFF

/-- ASCII lowercasing, for the case-insensitive regex match of the guard. -/
def asciiLower (c : Char) : Char :=
  if 0x41 ≤ c.val && c.val ≤ 0x5A then Char.ofNat (c.toNat + 32) else c

/-! ## Python string primitives -/

/-- Strip the characters satisfying p from both ends of a character list
(str.strip with p the Python whitespace class). -/
def stripEndsBy (p : Char → Bool) (l : List Char) : List Char :=
  ((l.dropWhile p).reverse.dropWhile p).reverse

/-- str.strip on a character list. -/
def pyStripL (l : List Char) : List Char := stripEndsBy isPySpace l

/-- str.strip on a String. -/
def pyStripStr (s : String) : String := String.mk (pyStripL s.data)

/-- Auxiliary scanner for the whitespace-collapsing regex substitution: the
Boolean records whether the scanner is inside a whitespace run whose single
replacement space has already been emitted. -/
def collapseWsAux : Bool → List Char → List Char
  | _, [] => []
  | inRun, c :: rest =>
    if isPySpace c then
      if inRun then collapseWsAux true rest
      else ' ' :: collapseWsAux true rest
    else c :: collapseWsAux false rest

/-- The regex substitution replacing every maximal whitespace run by a
single space (src/evaluator.py line 16). -/
def collapseWs (l : List Char) : List Char := collapseWsAux false l

/-- Auxiliary scanner for str.splitlines; the accumulator holds the current
line reversed. -/
def pySplitlinesAux : List Char → List Char → List (List Char)
  | [], cur => if cur.isEmpty then [] else [cur.reverse]
  | '\r' :: '\n' :: rest, cur => cur.reverse :: pySplitlinesAux rest []
  | c :: rest, cur =>
    if isLineBound c then cur.reverse :: pySplitlinesAux rest []
    else pySplitlinesAux rest (c :: cur)

/-- str.splitlines on a character list. -/
def pySplitlines (l : List Char) : List (List Char) := pySplitlinesAux l []

/-! ## Unicode NFKC model

Modelled from the NFKC normalization applied by the Python unicodedata
module, restricted to the code points occurring in this development: these
code points carry no compatibility decompositions, so NFKC on them is the
canonical composition pass, and among them only the combining acute accent
is a non-starter, so composition is the adjacent-pair scan below.  The
canonical composition table is restricted to the single pair used here:
latin small letter a followed by combining acute accent composes to latin
small letter a with acute.  Characters outside this fragment are treated as
composition-inert. -/

/-- Canonical composition table, restricted as described above. -/
def composePair (a b : Char) : Option Char :=
  if a.val == 0x61 && b.val == 0x301 then some (Char.ofNat 0xE1) else none

/-- Fueled adjacent-pair composition scan; the fuel is the list length,
which bounds the number of steps. -/
def nfkcComposeAux : Nat → List Char → List Char
  | 0, l => l
  | _, [] => []
  | _, [c] => [c]
  | Nat.succ f, a :: b :: rest =>
    match composePair a b with
    | some c => nfkcComposeAux f (c :: rest)
    | none => a :: nfkcComposeAux f (b :: rest)

/-- The NFKC model: the composition scan. -/
def nfkc (l : List Char) : List Char := nfkcComposeAux l.length l

/-! ## The statement sanitizer (src/evaluator.py lines 9 to 30) -/

/-- Embeds _normalize_sql (src/evaluator.py lines 11 to 17): NFKC
normalization, removal of zero-width characters, per-line strip joined by
newlines, whitespace-run collapse, and a final strip. -/
def _normalize_sql (s : String) : String :=
  let l0 := nfkc s.data
  let l1 := l0.filter (fun c => !isZeroWidth c)
  let l2 := List.intercalate ['\n'] ((pySplitlines l1).map pyStripL)
  String.mk (pyStripL (collapseWs l2))

/-- Scanner modes of the statement splitter: top level, single-quoted
string, double-quoted identifier, line comment, block comment. -/
inductive ScanMode where
  | top
  | sq
  | dq
  | lineC
  | blockC
deriving DecidableEq

/-- Modelled from the spec: the external sqlparse.split is specified as
splitting on statement-terminating semicolons using SQL-aware tokenization,
so that semicolons inside string literals or comments do not cause a false
split; each returned chunk retains its terminating semicolon, as sqlparse
does.  The accumulator holds the current chunk reversed. -/
def splitSqlAux : ScanMode → List Char → List Char → List (List Char)
  | _, cur, [] => if cur.isEmpty then [] else [cur.reverse]
  | ScanMode.top, cur, '-' :: '-' :: rest =>
    splitSqlAux ScanMode.lineC ('-' :: '-' :: cur) rest
  | ScanMode.top, cur, '/' :: '*' :: rest =>
    splitSqlAux ScanMode.blockC ('*' :: '/' :: cur) rest
  | ScanMode.top, cur, c :: rest =>
    if c == ';' then ((c :: cur).reverse) :: splitSqlAux ScanMode.top [] rest
    else if c.val == 39 then splitSqlAux ScanMode.sq (c :: cur) rest
    else if c == '"' then splitSqlAux ScanMode.dq (c :: cur) rest
    else splitSqlAux ScanMode.top (c :: cur) rest
  | ScanMode.sq, cur, c :: rest =>
    if c.val == 39 then splitSqlAux ScanMode.top (c :: cur) rest
    else splitSqlAux ScanMode.sq (c :: cur) rest
  | ScanMode.dq, cur, c :: rest =>
    if c == '"' then splitSqlAux ScanMode.top (c :: cur) rest
    else splitSqlAux ScanMode.dq (c :: cur) rest
  | ScanMode.lineC, cur, c :: rest =>
    if c == '\n' then splitSqlAux ScanMode.top (c :: cur) rest
    else splitSqlAux ScanMode.lineC (c :: cur) rest
  | ScanMode.blockC, cur, '*' :: '/' :: rest =>
    splitSqlAux ScanMode.top ('/' :: '*' :: cur) rest
  | ScanMode.blockC, cur, c :: rest =>
    splitSqlAux ScanMode.blockC (c :: cur) rest

/-- Statement splitting on a String (model of sqlparse.split). -/
def splitStatements (s : String) : List String :=
  (splitSqlAux ScanMode.top [] s.data).map String.mk

/-- Embeds _first_statement (src/evaluator.py lines 19 to 21): split, strip
each part, keep the non-empty ones, return the first or the empty string. -/
def _first_statement (s : String) : String :=
  let parts := ((splitStatements s).map pyStripStr).filter (fun p => !p.isEmpty)
  parts.headD ""

/-- Embeds validate_sql_syntax (src/evaluator.py lines 23 to 30).  Modelled
from the behavior of sqlparse.parse, which returns a non-empty statement
tuple for every non-empty input string and raises no exception on ordinary
strings, so the function returns false exactly on empty input. -/
def validate_sql_syntax (s : String) : Bool × Option String :=
  if s.isEmpty then (false, some "Empty query") else (true, none)

/-! ## The read-only guard of src/llm_Sql.py (lines 18 to 40) -/

/-- The single-quote character, built from its code point. -/
def quoteCh : Char := Char.ofNat 39

/-- The sentinel statement substituted for unsafe or unknown output. -/
def sentinelSql : String :=
  "SELECT " ++ String.singleton quoteCh ++ "INSUFFICIENT_INFO" ++
    String.singleton quoteCh ++ ";"

/-- str.rstrip with the single-character set containing the semicolon. -/
def rstripSemi (l : List Char) : List Char :=
  (l.reverse.dropWhile (fun c => c == ';')).reverse

/-- The anchored regex of src/llm_Sql.py lines 18 to 20: optional leading
whitespace, the keyword SELECT case-insensitively, then a word boundary
(end of input or a non-word character). -/
def matchSelectKw (l : List Char) : Bool :=
  let l1 := l.dropWhile isPySpace
  ((l1.take 6).map asciiLower == "select".data) &&
    (match l1.drop 6 with
     | [] => true
     | c :: _ => !isWordChar c)

/-- Embeds _enforce_select_only (src/llm_Sql.py lines 32 to 40): strip, drop
trailing semicolons, keep the statement with one semicolon restored when the
regex matches, otherwise substitute the sentinel. -/
def _enforce_select_only (sql : String) : String :=
  let sql_clean := String.mk (rstripSemi (pyStripL sql.data))
  if matchSelectKw sql_clean.data then sql_clean ++ ";" else sentinelSql

/-! ## Exact rationals standing in for Python floats

Python floats are binary rationals and every value reached by the grading
pipeline in this development is an exact decimal rational, so floats are
embedded as normalized rational pairs with kernel-computable arithmetic. -/

/-- A rational number as a normalized pair: numerator and positive
denominator with no common factor.  The denominator is stored less one, so
it is positive by construction.  All constructions go through mkQ, so
structural equality coincides with value equality. -/
structure Q where
  num : Int
  den1 : Nat
deriving DecidableEq, Repr

/-- The (positive) denominator. -/
def Q.den (q : Q) : Nat := q.den1 + 1

/-- Normalizing constructor (d zero yields zero, a case never reached by
the pipeline). -/
def mkQ (n : Int) (d : Nat) : Q :=
  let g := Nat.gcd n.natAbs d
  if g == 0 then ⟨0, 0⟩ else ⟨n / (g : Int), d / g - 1⟩

/-- The rational of an integer. -/
def qOfInt (n : Int) : Q := ⟨n, 0⟩

/-- Half-to-even integer rounding of the fraction n over d (the rounding
used by the numpy round applied at src/evaluator.py line 35), with d
positive. -/
def roundHalfEven (n : Int) (d : Nat) : Int :=
  let q0 := Int.fdiv n (d : Int)
  let r := n - q0 * (d : Int)
  if 2 * r < (d : Int) then q0
  else if (d : Int) < 2 * r then q0 + 1
  else if q0 % 2 == 0 then q0 else q0 + 1

/-- Rounding a rational to 6 decimal digits (Series.round(6) at
src/evaluator.py line 35). -/
def round6 (q : Q) : Q := mkQ (roundHalfEven (q.num * 1000000) q.den) 1000000

/-- Value equality of two rationals by cross multiplication. -/
def qEq (a b : Q) : Bool := a.num * (b.den : Int) == b.num * (a.den : Int)

/-- Value order of two rationals by cross multiplication. -/
def qLt (a b : Q) : Bool :=
  decide (a.num * (b.den : Int) < b.num * (a.den : Int))

/-! ## Scalar values and numeric parsing -/

/-- A scalar cell value of a result table: integer, float (exact rational),
string, or null (the not-a-number marker of pandas). -/
inductive Val where
  | vInt (n : Int)
  | vFloat (q : Q)
  | vStr (s : String)
  | vNull
deriving DecidableEq, Repr

/-- Numeric view of a value, when it is numeric. -/
def ratOfNum : Val → Option Q
  | Val.vInt n => some (qOfInt n)
  | Val.vFloat q => some q
  | _ => none

/-- Digit run to natural number. -/
def digitsToNat (l : List Char) : Nat :=
  l.foldl (fun a c => a * 10 + (c.toNat - 48)) 0

/-- Optional leading sign of a numeric literal: the flag is true for a
minus sign; the rest of the input follows. -/
def parseSign (l : List Char) : Bool × List Char :=
  match l with
  | c :: r => if c = '+' then (false, r) else if c = '-' then (true, r) else (false, l)
  | [] => (false, l)

/-- Optional fraction of a numeric literal: the flag records a decimal
point, then the fraction digits, then the rest of the input. -/
def parseFrac (l : List Char) : Bool × List Char × List Char :=
  match l with
  | c :: r =>
    if c = '.' then (true, r.takeWhile Char.isDigit, r.dropWhile Char.isDigit)
    else (false, [], l)
  | [] => (false, [], l)

/-- Exponent part of a numeric literal: optional sign then a non-empty digit
run consuming the whole rest; scales the given value by the power of ten. -/
def parseExpPart (mant : Int) (fracLen : Nat) (l : List Char) : Option Q :=
  let sn := parseSign l
  let ed := sn.2.takeWhile Char.isDigit
  if ed.isEmpty || !(sn.2.dropWhile Char.isDigit).isEmpty then none
  else
    let e := digitsToNat ed
    if sn.1 then some (mkQ mant (10 ^ (fracLen + e)))
    else some (mkQ (mant * (10 ^ e : Nat)) (10 ^ fracLen))

/-- Modelled from the numeric parser behind pandas to_numeric: optional
sign, digit run with optional fraction, optional exponent; at least one
digit in the mantissa and nothing left over.  Returns the float-form flag
(a decimal point or exponent was present) and the exact value. -/
def parseNumL (l : List Char) : Option (Bool × Q) :=
  let sn := parseSign l
  let ip := sn.2.takeWhile Char.isDigit
  let fr := parseFrac (sn.2.dropWhile Char.isDigit)
  if ip.isEmpty && fr.2.1.isEmpty then none
  else
    let mantAbs : Int := (digitsToNat (ip ++ fr.2.1) : Int)
    let mant := if sn.1 then -mantAbs else mantAbs
    match fr.2.2 with
    | [] => some (fr.1, mkQ mant (10 ^ fr.2.1.length))
    | 'e' :: r3 => (parseExpPart mant fr.2.1.length r3).map (fun q => (true, q))
    | 'E' :: r3 => (parseExpPart mant fr.2.1.length r3).map (fun q => (true, q))
    | _ => none

/-! ## String form of values (str applied elementwise by astype) -/

/-- Fueled removal of all factors p from m. -/
def stripFactorAux (p : Nat) : Nat → Nat → Nat
  | 0, m => m
  | Nat.succ f, m =>
    if m ≠ 0 && m % p == 0 && p > 1 then stripFactorAux p f (m / p) else m

/-- Remove all factors p from m. -/
def stripFactor (p m : Nat) : Nat := stripFactorAux p m m

/-- Left-pad a digit string with zeros to the given length. -/
def padZeros (s : List Char) (k : Nat) : List Char :=
  List.replicate (k - s.length) '0' ++ s

/-- Smallest k with d dividing 10 to the k (d a product of twos and
fives): the larger of the multiplicities of 2 and 5 in d. -/
def tenExpOf (d : Nat) : Nat :=
  max (d / stripFactor 2 d).log2 ((Nat.log 5 (d / stripFactor 5 d)))

/-- Decimal string of a rational whose denominator divides a power of ten
(every Python float printed by str falls in this class after parsing); a
rational outside the class gets a non-reparsable marker, such values do not
arise from Python floats. -/
def ratDecimalStr (q : Q) : String :=
  let n := q.num.natAbs
  let d := q.den
  if stripFactor 5 (stripFactor 2 d) ≠ 1 then
    "?" ++ toString q.num ++ "/" ++ toString d
  else
    let k := tenExpOf d
    let scaled := n * 10 ^ k / d
    let sign := if q.num < 0 then "-" else ""
    if k == 0 then sign ++ toString scaled ++ ".0"
    else
      let ds := padZeros (toString scaled).data (k + 1)
      sign ++ String.mk (ds.take (ds.length - k)) ++ "." ++
        String.mk (ds.drop (ds.length - k))

/-- str applied to a cell value, as astype(str) does elementwise: integers
print plainly, floats with a decimal point, the null marker prints as the
three letters nan. -/
def stringifyVal : Val → String
  | Val.vInt n => toString n
  | Val.vFloat q => ratDecimalStr q
  | Val.vStr s => s
  | Val.vNull => "nan"

/-! ## Result tables (the pandas DataFrames of the grader) -/

/-- The dtype of a result column: 64-bit integer, float, or object (mixed
or string), as produced by read_sql_query. -/
inductive ColKind where
  | kInt
  | kFloat
  | kObject
deriving DecidableEq, Repr

/-- A result table: column names, column dtypes, and rows of cell values
(row-major; the kinds list is parallel to the names list). -/
structure Table where
  names : List String
  kinds : List ColKind
  rows : List (List Val)
deriving DecidableEq, Repr

/-- Values of column j, top to bottom. -/
def colVals (t : Table) (j : Nat) : List Val :=
  t.rows.map (fun r => r.getD j Val.vNull)

/-! ## Per-column canonicalization (_canon_series, src/evaluator.py 32-44) -/

/-- Rounding map of a float column. -/
def roundVal : Val → Val
  | Val.vFloat q => Val.vFloat (round6 q)
  | v => v

/-- The object-column elementwise preparation of _canon_series lines 39-40:
astype(str), strip, and replacement of the None and nan spellings by the
null marker. -/
def objCanonVal (v : Val) : Val :=
  let s := pyStripStr (stringifyVal v)
  if s == "None" || s == "nan" then Val.vNull else Val.vStr s

/-- Whether a prepared object cell converts under to_numeric (nulls pass
through). -/
def objParses (v : Val) : Bool :=
  match objCanonVal v with
  | Val.vNull => true
  | Val.vStr s => (parseNumL s.data).isSome
  | _ => true

/-- Whether a prepared object cell forces a float column under to_numeric:
nulls do (integers with nulls widen to float) and float-form literals do. -/
def objIsFloatish (v : Val) : Bool :=
  match objCanonVal v with
  | Val.vNull => true
  | Val.vStr s =>
    (match parseNumL s.data with
     | some (f, _) => f
     | none => false)
  | _ => false

/-- Elementwise conversion of an all-integer-literal object column. -/
def objToIntVal (v : Val) : Val :=
  match objCanonVal v with
  | Val.vStr s =>
    (match parseNumL s.data with
     | some (_, q) => Val.vInt q.num
     | none => Val.vNull)
  | x => x

/-- Elementwise conversion of an object column with floats or nulls. -/
def objToFloatVal (v : Val) : Val :=
  match objCanonVal v with
  | Val.vStr s =>
    (match parseNumL s.data with
     | some (_, q) => Val.vFloat q
     | none => Val.vNull)
  | x => x

/-- Embeds _canon_series (src/evaluator.py lines 32 to 44) as a column
plan: the resulting dtype together with the elementwise map.  Float columns
are rounded to 6 digits; integer columns pass through; object columns are
stringified, stripped, null-replaced, and converted wholesale by to_numeric
when every non-null cell parses (all-or-nothing, as to_numeric converts a
whole Series or leaves it unchanged), staying object otherwise. -/
def colPlan (k : ColKind) (vals : List Val) : ColKind × (Val → Val) :=
  match k with
  | ColKind.kFloat => (ColKind.kFloat, roundVal)
  | ColKind.kInt => (ColKind.kInt, fun v => v)
  | ColKind.kObject =>
    if vals.all objParses then
      if vals.any objIsFloatish then (ColKind.kFloat, objToFloatVal)
      else (ColKind.kInt, objToIntVal)
    else (ColKind.kObject, objCanonVal)

/-- The column plans of a table, one per column. -/
def canonPlans (t : Table) : List (ColKind × (Val → Val)) :=
  (List.range t.names.length).map
    (fun j => colPlan (t.kinds.getD j ColKind.kObject) (colVals t j))

/-- Apply the per-column maps to one row. -/
def canonRow1 (plans : List (ColKind × (Val → Val))) (r : List Val) : List Val :=
  List.zipWith (fun p v => p.2 v) plans r

/-! ## Whole-table canonicalization (_canon_df, src/evaluator.py 46-64) -/

/-- Stable insertion into a sorted list. -/
def insertSorted (le : α → α → Bool) (x : α) : List α → List α
  | [] => [x]
  | y :: ys => if le x y then x :: y :: ys else y :: insertSorted le x ys

/-- Stable insertion sort, the model of the stable sorts used by Python
sorted and the pandas mergesort kind (for a total preorder a stable sort is
unique, so insertion sort is a faithful model). -/
def insertionSort (le : α → α → Bool) : List α → List α
  | [] => []
  | x :: xs => insertSorted le x (insertionSort le xs)

/-- Code-point lexicographic comparison of strings, the Python string
order used by sorted on column labels. -/
def strLtB (a b : List Char) : Bool :=
  match a, b with
  | [], [] => false
  | [], _ :: _ => true
  | _ :: _, [] => false
  | x :: xs, y :: ys =>
    if x.val < y.val then true
    else if y.val < x.val then false
    else strLtB xs ys

/-- Non-strict string order. -/
def strLeB (a b : List Char) : Bool := !strLtB b a

/-- The column permutation sorting the (stripped) labels alphabetically
(the reindex by sorted column labels, src/evaluator.py line 55): the list
of original column indices in sorted label order. -/
def sortedColIdx (names1 : List String) : List Nat :=
  insertionSort (fun i j => strLeB (names1.getD i "").data (names1.getD j "").data)
    (List.range names1.length)

/-- Reorder one row by the column permutation. -/
def reorderRow (σ : List Nat) (r : List Val) : List Val :=
  σ.map (fun i => r.getD i Val.vNull)

/-- Comparison of two cell values for row sorting: numerics by value,
strings by code points, nulls after everything (the na-last placement of
pandas sorts), with a constructor rank as the cross-kind fallback (the
cross-kind case only arises in the branch that the sortability check sends
to the stringified fallback). -/
def cmpVal (a b : Val) : Ordering :=
  match ratOfNum a, ratOfNum b with
  | some x, some y =>
    if qLt x y then Ordering.lt else if qLt y x then Ordering.gt else Ordering.eq
  | _, _ =>
    match a, b with
    | Val.vStr s, Val.vStr t =>
      if strLtB s.data t.data then Ordering.lt
      else if strLtB t.data s.data then Ordering.gt else Ordering.eq
    | Val.vNull, Val.vNull => Ordering.eq
    | Val.vNull, _ => Ordering.gt
    | _, Val.vNull => Ordering.lt
    | Val.vStr _, _ => Ordering.gt
    | _, Val.vStr _ => Ordering.lt
    | _, _ => Ordering.eq

/-- Lexicographic row order induced by cmpVal (sort_values by all columns). -/
def rowLeVal : List Val → List Val → Bool
  | [], _ => true
  | _ :: _, [] => false
  | a :: as_, b :: bs =>
    match cmpVal a b with
    | Ordering.lt => true
    | Ordering.gt => false
    | Ordering.eq => rowLeVal as_ bs

/-- Whether sorting a column raises no type error: modelled as the absence
of a string mixed with a numeric in the same column (comparing a string
with a number raises in Python; null comparisons do not raise). -/
def colSortableVals (vals : List Val) : Bool :=
  !(vals.any (fun v => match v with | Val.vStr _ => true | _ => false) &&
    vals.any (fun v => (ratOfNum v).isSome))

/-- Whether the whole-row sort succeeds without the stringify fallback. -/
def sortOKB (t : Table) : Bool :=
  (List.range t.names.length).all (fun j => colSortableVals (colVals t j))

/-- Elementwise stringification of a row (the astype(str) fallback of
src/evaluator.py line 61). -/
def stringifyRow (r : List Val) : List Val :=
  r.map (fun v => Val.vStr (stringifyVal v))

/-- Stage one of _canon_df: strip the column labels and apply the column
plans (src/evaluator.py lines 51 to 53). -/
def canonStage1 (t : Table) : Table :=
  { names := t.names.map pyStripStr,
    kinds := (canonPlans t).map (fun p => p.1),
    rows := t.rows.map (canonRow1 (canonPlans t)) }

/-- Stage two of _canon_df: reindex the columns in sorted label order
(src/evaluator.py line 55). -/
def canonStage2 (t : Table) : Table :=
  let σ := sortedColIdx t.names
  { names := σ.map (fun i => t.names.getD i ""),
    kinds := σ.map (fun i => t.kinds.getD i ColKind.kObject),
    rows := t.rows.map (reorderRow σ) }

/-- Embeds _canon_df (src/evaluator.py lines 46 to 64): stages one and two,
then the stable row sort by all columns, falling back to sorting the
stringified table when a sort comparison raises. -/
def _canon_df (t : Table) : Table :=
  let s2 := canonStage2 (canonStage1 t)
  if sortOKB s2 then { s2 with rows := insertionSort rowLeVal s2.rows }
  else
    { names := s2.names,
      kinds := s2.kinds.map (fun _ => ColKind.kObject),
      rows := insertionSort rowLeVal (s2.rows.map stringifyRow) }

/-- Embeds _as_value_matrix (src/evaluator.py lines 66 to 77): the rows of
the table with _canon_series applied to each column a second time (the
matrix is value-only, so only the rows are kept). -/
def _as_value_matrix (t : Table) : List (List Val) :=
  t.rows.map (canonRow1 (canonPlans t))

/-! ## Row multiset comparison (the Counter comparisons of evaluate_sql) -/

/-- Python equality of two cell values, as used by tuple hashing and
equality inside Counter: numerics compare by value across int and float,
strings structurally.  The null-equals-null clause models the shared
np.nan singleton that the replace step puts into object columns, which
tuple comparison identifies; it does not model the NaN cells of float
columns, which the matrix conversion boxes into distinct Python floats
that compare unequal to everything.  The theorems that rest on the
multiset or overlap comparison therefore carry null-freeness hypotheses
(nonNullCell below), under which the clause is never exercised. -/
def pyEqVal (a b : Val) : Bool :=
  match ratOfNum a, ratOfNum b with
  | some x, some y => qEq x y
  | _, _ =>
    match a, b with
    | Val.vStr s, Val.vStr t => s == t
    | Val.vNull, Val.vNull => true
    | _, _ => false

/-- Python equality of two row tuples: equal lengths and elementwise
Python equality. -/
def pyEqRow : List Val → List Val → Bool
  | [], [] => true
  | [], _ :: _ => false
  | _ :: _, [] => false
  | a :: as_, b :: bs => pyEqVal a b && pyEqRow as_ bs

/-- Equality of the two row Counters: every key of either side has the same
multiplicity on both sides. -/
def rowMultisetEqB (a b : List (List Val)) : Bool :=
  a.all (fun r => a.countP (pyEqRow r) == b.countP (pyEqRow r)) &&
  b.all (fun r => a.countP (pyEqRow r) == b.countP (pyEqRow r))

/-- Fueled selection of one representative per Python-equality class, in
first-occurrence order (the key set of a Counter). -/
def dedupRowsAux : Nat → List (List Val) → List (List Val)
  | 0, _ => []
  | _, [] => []
  | Nat.succ f, r :: rest =>
    r :: dedupRowsAux f (rest.filter (fun x => !pyEqRow r x))

/-- Representatives of the row classes of a list. -/
def dedupRows (l : List (List Val)) : List (List Val) := dedupRowsAux l.length l

/-- The total count of the Counter intersection (sum over the keys of the
first Counter of the smaller multiplicity), as in the overlap of
src/evaluator.py line 153. -/
def overlapCount (a b : List (List Val)) : Nat :=
  ((dedupRows a).map
    (fun r => min (a.countP (pyEqRow r)) (b.countP (pyEqRow r)))).sum

/-! ## The grader (evaluate_sql, src/evaluator.py 82-165) -/

/-- DataFrame.equals of two canonicalized tables: same labels, same dtypes,
same cells, with nulls at equal positions counting as equal (structural
equality of the embedding covers this, the null marker being a value). -/
def dfEqualsB (a b : Table) : Bool := decide (a = b)

/-- Shape equality (_same_shape, src/evaluator.py lines 79 to 80). -/
def sameShapeB (a b : Table) : Bool :=
  (a.rows.length == b.rows.length) && (a.names.length == b.names.length)

/-- Column projection by label, in the given label order (the frame
selection user_df[common] of src/evaluator.py lines 148 to 149).  Faithful
when every requested label occurs exactly once among the table's names,
which holds when the names are duplicate-free and fixed under strip (as
hypothesized where this projection is reasoned about); for a missing label
the code raises a KeyError outside any try, while this returns a default
column. -/
def projectCols (t : Table) (cols : List String) : Table :=
  let idxs := cols.map (fun c => t.names.findIdx (fun n => n == c))
  { names := cols,
    kinds := idxs.map (fun i => t.kinds.getD i ColKind.kObject),
    rows := t.rows.map (fun r => idxs.map (fun i => r.getD i Val.vNull)) }

/-- The verdict payload: a displayed table or a diagnostic message. -/
inductive Payload where
  | table (t : Table)
  | msg (s : String)
deriving DecidableEq, Repr

/-- The comparison tiers of evaluate_sql (src/evaluator.py lines 125 to
165): exact canonical equality, then the shape-guarded multiset comparison,
then partial credit by the multiset intersection over the common columns
(the merge fallback of lines 157 to 163 is dead in this embedding because
the Counter comparison of scalar tuples raises no exception), and otherwise
incorrect.  Verdicts are the Python strings. -/
def gradeTables (udf gdf : Table) : String × Payload :=
  let u := _canon_df udf
  let g := _canon_df gdf
  if dfEqualsB u g then ("correct", Payload.table udf)
  else if sameShapeB u g &&
      rowMultisetEqB (_as_value_matrix u) (_as_value_matrix g) then
    ("correct", Payload.table udf)
  else
    let common := u.names.filter (fun c => g.names.contains c)
    if common.isEmpty then ("incorrect", Payload.table udf)
    else
      let usub := _canon_df (projectCols udf common)
      let gsub := _canon_df (projectCols gdf common)
      if overlapCount (_as_value_matrix usub) (_as_value_matrix gsub) > 0 then
        ("partial", Payload.table udf)
      else ("incorrect", Payload.table udf)

/-! ## The connection model and the grading entry point -/

/-- Connection state: whether a transaction is open, and the trace of
statements this connection has executed. -/
structure Conn where
  txnOpen : Bool
  executed : List String
deriving DecidableEq, Repr

/-- The database engine as an environment: what running a statement returns
(a table or the engine diagnostic) and the transaction state it leaves. -/
structure ExecEnv where
  run : String → Except String Table
  txnAfter : String → Bool

/-- conn.rollback(): close any open transaction. -/
def rollback (c : Conn) : Conn := { c with txnOpen := false }

/-- Record the execution of one statement on the connection. -/
def execStmt (env : ExecEnv) (s : String) (c : Conn) : Conn :=
  { txnOpen := env.txnAfter s, executed := c.executed ++ [s] }

/-- Embeds evaluate_sql (src/evaluator.py lines 82 to 165): normalize and
truncate both statements to their first statement, guard empty candidate
and empty reference, validate, execute the candidate (rolling back on
failure), execute the reference (rolling back on failure), then compare
with gradeTables.  Returns the verdict string, the payload, and the final
connection state. -/
def evaluate_sql (env : ExecEnv) (user_sql correct_sql : String) (c : Conn) :
    String × Payload × Conn :=
  let u1 := _first_statement (_normalize_sql user_sql)
  let g1 := _first_statement (_normalize_sql correct_sql)
  if (pyStripStr u1).isEmpty then ("syntax_error", Payload.msg "Empty query", c)
  else if (pyStripStr g1).isEmpty then
    ("error", Payload.msg "Internal error: answer SQL missing", c)
  else if !( validate_sql_syntax u1).1 then
    ("syntax_error", Payload.msg ((( validate_sql_syntax u1).2).getD ""), c)
  else
    match env.run u1 with
    | Except.error e =>
      ("syntax_error", Payload.msg ("SQL execution failed: " ++ e),
        rollback (execStmt env u1 c))
    | Except.ok udf =>
      match env.run g1 with
      | Except.error e =>
        ("error", Payload.msg ("Internal error running reference query: " ++ e),
          rollback (execStmt env g1 (execStmt env u1 c)))
      | Except.ok gdf =>
        ((gradeTables udf gdf).1, (gradeTables udf gdf).2,
          execStmt env g1 (execStmt env u1 c))

/-! ## Helper lemmas: permutations, counting, Python equality -/

theorem insertSorted_perm (le : α → α → Bool) (x : α) (l : List α) :
    (insertSorted le x l).Perm (x :: l) := by
  induction l with
  | nil => simp [insertSorted]
  | cons y ys ih =>
    simp only [insertSorted]
    by_cases h : le x y
    · simp [h]
    · simp only [h, if_false]
      exact (ih.cons y).trans (List.Perm.swap x y ys)

theorem insertionSort_perm (le : α → α → Bool) (l : List α) :
    (insertionSort le l).Perm l := by
  induction l with
  | nil => simp [insertionSort]
  | cons x xs ih =>
    exact (insertSorted_perm le x (insertionSort le xs)).trans (ih.cons x)

theorem any_eq_of_mem_iff {l1 l2 : List α} (h : ∀ x, x ∈ l1 ↔ x ∈ l2)
    (p : α → Bool) : l1.any p = l2.any p := by
  by_cases h1 : l1.any p = true
  · rcases List.any_eq_true.mp h1 with ⟨x, hx, hp⟩
    exact h1.trans (List.any_eq_true.mpr ⟨x, (h x).mp hx, hp⟩).symm
  · have h2 : ¬ l2.any p = true := by
      intro h2
      rcases List.any_eq_true.mp h2 with ⟨x, hx, hp⟩
      exact h1 (List.any_eq_true.mpr ⟨x, (h x).mpr hx, hp⟩)
    rw [Bool.not_eq_true] at h1 h2
    rw [h1, h2]

theorem all_eq_of_mem_iff {l1 l2 : List α} (h : ∀ x, x ∈ l1 ↔ x ∈ l2)
    (p : α → Bool) : l1.all p = l2.all p := by
  by_cases h1 : l1.all p = true
  · refine h1.trans (List.all_eq_true.mpr ?_).symm
    intro x hx
    exact List.all_eq_true.mp h1 x ((h x).mpr hx)
  · have h2 : ¬ l2.all p = true := by
      intro h2
      exact h1 (List.all_eq_true.mpr (fun x hx => List.all_eq_true.mp h2 x ((h x).mp hx)))
    rw [Bool.not_eq_true] at h1 h2
    rw [h1, h2]

theorem rowMultisetEqB_true_of_countP {a b : List (List Val)}
    (h : ∀ r, a.countP (pyEqRow r) = b.countP (pyEqRow r)) :
    rowMultisetEqB a b = true := by
  simp only [rowMultisetEqB, Bool.and_eq_true, List.all_eq_true, beq_iff_eq]
  exact ⟨fun r _ => h r, fun r _ => h r⟩

theorem rowMultisetEqB_of_perm {a b : List (List Val)} (h : a.Perm b) :
    rowMultisetEqB a b = true :=
  rowMultisetEqB_true_of_countP (fun r => h.countP_eq (pyEqRow r))

/-- The composite per-row map of stages one and two of _canon_df. -/
def canonRowFn (t : Table) : List Val → List Val :=
  fun r => reorderRow (sortedColIdx (t.names.map pyStripStr))
    (canonRow1 (canonPlans t) r)

/-- The composite per-row map of _canon_df, including the stringify
fallback branch. -/
def canonRowFnFull (t : Table) : List Val → List Val :=
  if sortOKB (canonStage2 (canonStage1 t)) then canonRowFn t
  else fun r => stringifyRow (canonRowFn t r)

theorem stage12_rows (t : Table) :
    (canonStage2 (canonStage1 t)).rows = t.rows.map (canonRowFn t) := by
  simp [canonStage1, canonStage2, canonRowFn, List.map_map]

theorem stage12_names (t : Table) :
    (canonStage2 (canonStage1 t)).names =
      (sortedColIdx (t.names.map pyStripStr)).map
        (fun i => (t.names.map pyStripStr).getD i "") := by
  simp [canonStage1, canonStage2]

theorem canon_df_rows_perm (t : Table) :
    (_canon_df t).rows.Perm (t.rows.map (canonRowFnFull t)) := by
  unfold _canon_df canonRowFnFull
  by_cases h : sortOKB (canonStage2 (canonStage1 t)) = true
  · simp only [h, if_true]
    exact (insertionSort_perm _ _).trans (by rw [stage12_rows])
  · rw [Bool.not_eq_true] at h
    simp only [h, Bool.false_eq_true, if_false]
    refine (insertionSort_perm _ _).trans ?_
    rw [stage12_rows, List.map_map]
    rfl

theorem canon_df_names (t : Table) :
    (_canon_df t).names = (canonStage2 (canonStage1 t)).names := by
  unfold _canon_df
  by_cases h : sortOKB (canonStage2 (canonStage1 t)) = true
  · simp [h]
  · rw [Bool.not_eq_true] at h
    simp [h]

theorem canon_df_rows_length (t : Table) :
    (_canon_df t).rows.length = t.rows.length := by
  rw [(canon_df_rows_perm t).length_eq, List.length_map]

theorem sortedColIdx_length (names1 : List String) :
    (sortedColIdx names1).length = names1.length := by
  unfold sortedColIdx
  rw [(insertionSort_perm _ _).length_eq, List.length_range]

theorem canon_df_names_length (t : Table) :
    (_canon_df t).names.length = t.names.length := by
  rw [canon_df_names, stage12_names, List.length_map, sortedColIdx_length,
    List.length_map]

theorem colPlan_congr (k : ColKind) {v1 v2 : List Val}
    (h : ∀ x, x ∈ v1 ↔ x ∈ v2) : colPlan k v1 = colPlan k v2 := by
  cases k with
  | kInt => rfl
  | kFloat => rfl
  | kObject =>
    simp only [colPlan]
    rw [all_eq_of_mem_iff h, any_eq_of_mem_iff h]

theorem colVals_mem_iff {t1 t2 : Table}
    (hm : ∀ x, x ∈ t2.rows ↔ x ∈ t1.rows) (j : Nat) :
    ∀ x, x ∈ colVals t2 j ↔ x ∈ colVals t1 j := by
  intro x
  simp only [colVals, List.mem_map]
  constructor
  · rintro ⟨r, hr, rfl⟩
    exact ⟨r, (hm r).mp hr, rfl⟩
  · rintro ⟨r, hr, rfl⟩
    exact ⟨r, (hm r).mpr hr, rfl⟩

theorem canonPlans_congr {t1 t2 : Table} (hn : t2.names.length = t1.names.length)
    (hk : t2.kinds = t1.kinds)
    (hcv : ∀ j x, x ∈ colVals t2 j ↔ x ∈ colVals t1 j) :
    canonPlans t2 = canonPlans t1 := by
  unfold canonPlans
  rw [hn]
  refine List.map_congr_left ?_
  intro j _
  rw [hk]
  exact colPlan_congr _ (hcv j)

theorem canonRowFn_congr {t1 t2 : Table} (hn : t2.names = t1.names)
    (hk : t2.kinds = t1.kinds)
    (hm : ∀ x, x ∈ t2.rows ↔ x ∈ t1.rows) : canonRowFn t2 = canonRowFn t1 := by
  have hplans : canonPlans t2 = canonPlans t1 :=
    canonPlans_congr (by rw [hn]) hk (colVals_mem_iff hm)
  unfold canonRowFn
  rw [hn, hplans]

theorem all_pointwise {l : List α} {p q : α → Bool} (h : ∀ x ∈ l, p x = q x) :
    l.all p = l.all q := by
  induction l with
  | nil => rfl
  | cons x xs ih =>
    simp only [List.all_cons]
    rw [h x (List.mem_cons_self _ _), ih (fun y hy => h y (List.mem_cons_of_mem _ hy))]

theorem stage12_colVals_mem_iff {t1 t2 : Table} (hn : t2.names = t1.names)
    (hk : t2.kinds = t1.kinds) (hm : ∀ x, x ∈ t2.rows ↔ x ∈ t1.rows) (j : Nat) :
    ∀ x, x ∈ colVals (canonStage2 (canonStage1 t2)) j ↔
      x ∈ colVals (canonStage2 (canonStage1 t1)) j := by
  intro x
  have hf := canonRowFn_congr hn hk hm
  simp only [colVals, stage12_rows, List.map_map, List.mem_map, Function.comp]
  constructor
  · rintro ⟨r, hr, rfl⟩
    exact ⟨r, (hm r).mp hr, by rw [hf]⟩
  · rintro ⟨r, hr, rfl⟩
    exact ⟨r, (hm r).mpr hr, by rw [hf]⟩

theorem sortOKB_stage_congr {t1 t2 : Table} (hn : t2.names = t1.names)
    (hk : t2.kinds = t1.kinds) (hm : ∀ x, x ∈ t2.rows ↔ x ∈ t1.rows) :
    sortOKB (canonStage2 (canonStage1 t2)) =
      sortOKB (canonStage2 (canonStage1 t1)) := by
  have hnames2 : (canonStage2 (canonStage1 t2)).names =
      (canonStage2 (canonStage1 t1)).names := by
    rw [stage12_names, stage12_names, hn]
  unfold sortOKB
  rw [hnames2]
  refine all_pointwise ?_
  intro j _
  unfold colSortableVals
  rw [any_eq_of_mem_iff (stage12_colVals_mem_iff hn hk hm j),
    any_eq_of_mem_iff (stage12_colVals_mem_iff hn hk hm j)]

theorem stage12_kinds_congr {t1 t2 : Table} (hn : t2.names = t1.names)
    (hk : t2.kinds = t1.kinds) (hm : ∀ x, x ∈ t2.rows ↔ x ∈ t1.rows) :
    (canonStage2 (canonStage1 t2)).kinds =
      (canonStage2 (canonStage1 t1)).kinds := by
  have hplans : canonPlans t2 = canonPlans t1 :=
    canonPlans_congr (by rw [hn]) hk (colVals_mem_iff hm)
  simp only [canonStage1, canonStage2]
  rw [hplans, hn]

theorem canon_df_kinds (t : Table) :
    (_canon_df t).kinds =
      (if sortOKB (canonStage2 (canonStage1 t)) then
        (canonStage2 (canonStage1 t)).kinds
      else (canonStage2 (canonStage1 t)).kinds.map (fun _ => ColKind.kObject)) := by
  unfold _canon_df
  by_cases h : sortOKB (canonStage2 (canonStage1 t)) = true
  · simp [h]
  · rw [Bool.not_eq_true] at h
    simp [h]

theorem canon_df_congr {t1 t2 : Table} (hn : t2.names = t1.names)
    (hk : t2.kinds = t1.kinds) (hm : ∀ x, x ∈ t2.rows ↔ x ∈ t1.rows) :
    (_canon_df t2).names = (_canon_df t1).names ∧
    (_canon_df t2).kinds = (_canon_df t1).kinds ∧
    canonRowFnFull t2 = canonRowFnFull t1 := by
  have hsort := sortOKB_stage_congr hn hk hm
  have hf := canonRowFn_congr hn hk hm
  have hkk := stage12_kinds_congr hn hk hm
  refine ⟨?_, ?_, ?_⟩
  · rw [canon_df_names, canon_df_names, stage12_names, stage12_names, hn]
  · rw [canon_df_kinds, canon_df_kinds, hsort, hkk]
  · unfold canonRowFnFull
    rw [hsort, hf]

theorem canon_rows_mem_iff {t1 t2 : Table} (hn : t2.names = t1.names)
    (hk : t2.kinds = t1.kinds) (hm : ∀ x, x ∈ t2.rows ↔ x ∈ t1.rows) :
    ∀ x, x ∈ (_canon_df t2).rows ↔ x ∈ (_canon_df t1).rows := by
  intro x
  rw [(canon_df_rows_perm t2).mem_iff, (canon_df_rows_perm t1).mem_iff,
    (canon_df_congr hn hk hm).2.2]
  simp only [List.mem_map]
  constructor
  · rintro ⟨r, hr, rfl⟩
    exact ⟨r, (hm r).mp hr, rfl⟩
  · rintro ⟨r, hr, rfl⟩
    exact ⟨r, (hm r).mpr hr, rfl⟩

theorem matrix_plans_congr {t1 t2 : Table} (hn : t2.names = t1.names)
    (hk : t2.kinds = t1.kinds) (hm : ∀ x, x ∈ t2.rows ↔ x ∈ t1.rows) :
    canonPlans (_canon_df t2) = canonPlans (_canon_df t1) := by
  rcases canon_df_congr hn hk hm with ⟨h1, h2, _⟩
  exact canonPlans_congr (by rw [h1]) h2
    (fun j => colVals_mem_iff (canon_rows_mem_iff hn hk hm) j)

theorem matrix_canon_perm (t : Table) :
    (_as_value_matrix (_canon_df t)).Perm
      (t.rows.map
        (fun r => canonRow1 (canonPlans (_canon_df t)) (canonRowFnFull t r))) := by
  unfold _as_value_matrix
  refine ((canon_df_rows_perm t).map _).trans ?_
  rw [List.map_map]
  rfl

/-! ## Unfolding lemmas for the grading entry point -/

theorem pyStripStr_empty : pyStripStr "" = "" := rfl

theorem isEmpty_ne_of_ne {s : String} (h : s ≠ "") : ¬ s.isEmpty = true :=
  fun hs => h ((String.isEmpty_iff _).mp hs)

theorem ne_empty_of_strip_ne {s : String} (h : pyStripStr s ≠ "") : s ≠ "" :=
  fun hs => h (by rw [hs]; rfl)

theorem evaluate_sql_empty_user (env : ExecEnv) (user gold : String) (c : Conn)
    (hu : pyStripStr (_first_statement (_normalize_sql user)) = "") :
    evaluate_sql env user gold c = ("syntax_error", Payload.msg "Empty query", c) := by
  unfold evaluate_sql
  rw [if_pos ((String.isEmpty_iff _).mpr hu)]

theorem evaluate_sql_empty_gold (env : ExecEnv) (user gold : String) (c : Conn)
    (hu : pyStripStr (_first_statement (_normalize_sql user)) ≠ "")
    (hg : pyStripStr (_first_statement (_normalize_sql gold)) = "") :
    evaluate_sql env user gold c =
      ("error", Payload.msg "Internal error: answer SQL missing", c) := by
  unfold evaluate_sql
  rw [if_neg (isEmpty_ne_of_ne hu), if_pos ((String.isEmpty_iff _).mpr hg)]

theorem validate_true_of_strip_ne {s : String} (h : pyStripStr s ≠ "") :
    validate_sql_syntax s = (true, none) := by
  unfold validate_sql_syntax
  rw [if_neg (isEmpty_ne_of_ne (ne_empty_of_strip_ne h))]

theorem evaluate_sql_cand_fail (env : ExecEnv) (user gold : String) (c : Conn)
    {e : String}
    (hu : pyStripStr (_first_statement (_normalize_sql user)) ≠ "")
    (hg : pyStripStr (_first_statement (_normalize_sql gold)) ≠ "")
    (hru : env.run (_first_statement (_normalize_sql user)) = Except.error e) :
    evaluate_sql env user gold c =
      ("syntax_error", Payload.msg ("SQL execution failed: " ++ e),
        rollback (execStmt env (_first_statement (_normalize_sql user)) c)) := by
  unfold evaluate_sql
  rw [if_neg (isEmpty_ne_of_ne hu), if_neg (isEmpty_ne_of_ne hg),
    if_neg (by rw [validate_true_of_strip_ne hu]; simp), hru]

theorem evaluate_sql_ref_fail (env : ExecEnv) (user gold : String) (c : Conn)
    {udf : Table} {e : String}
    (hu : pyStripStr (_first_statement (_normalize_sql user)) ≠ "")
    (hg : pyStripStr (_first_statement (_normalize_sql gold)) ≠ "")
    (hru : env.run (_first_statement (_normalize_sql user)) = Except.ok udf)
    (hrg : env.run (_first_statement (_normalize_sql gold)) = Except.error e) :
    evaluate_sql env user gold c =
      ("error", Payload.msg ("Internal error running reference query: " ++ e),
        rollback (execStmt env (_first_statement (_normalize_sql gold))
          (execStmt env (_first_statement (_normalize_sql user)) c))) := by
  unfold evaluate_sql
  rw [if_neg (isEmpty_ne_of_ne hu), if_neg (isEmpty_ne_of_ne hg),
    if_neg (by rw [validate_true_of_strip_ne hu]; simp), hru, hrg]

theorem evaluate_sql_exec_ok (env : ExecEnv) (user gold : String) (c : Conn)
    {udf gdf : Table}
    (hu : pyStripStr (_first_statement (_normalize_sql user)) ≠ "")
    (hg : pyStripStr (_first_statement (_normalize_sql gold)) ≠ "")
    (hru : env.run (_first_statement (_normalize_sql user)) = Except.ok udf)
    (hrg : env.run (_first_statement (_normalize_sql gold)) = Except.ok gdf) :
    evaluate_sql env user gold c =
      ((gradeTables udf gdf).1, (gradeTables udf gdf).2,
        execStmt env (_first_statement (_normalize_sql gold))
          (execStmt env (_first_statement (_normalize_sql user)) c)) := by
  unfold evaluate_sql
  rw [if_neg (isEmpty_ne_of_ne hu), if_neg (isEmpty_ne_of_ne hg),
    if_neg (by rw [validate_true_of_strip_ne hu]; simp), hru, hrg]

/-! ## The comparison core: order insensitivity -/

theorem gradeTables_correct_of_perm (udf gdf : Table)
    (hn : gdf.names = udf.names) (hk : gdf.kinds = udf.kinds)
    (hp : gdf.rows.Perm udf.rows) :
    gradeTables udf gdf = ("correct", Payload.table udf) := by
  have hm : ∀ x, x ∈ gdf.rows ↔ x ∈ udf.rows := fun x => hp.mem_iff
  rcases canon_df_congr hn hk hm with ⟨_, _, hff⟩
  have hplans2 := matrix_plans_congr hn hk hm
  have hg := matrix_canon_perm gdf
  rw [hplans2, hff] at hg
  have hu2 := matrix_canon_perm udf
  have hmat : (_as_value_matrix (_canon_df udf)).Perm
      (_as_value_matrix (_canon_df gdf)) :=
    hu2.trans (((hp.map _).symm).trans hg.symm)
  have hshape : sameShapeB (_canon_df udf) (_canon_df gdf) = true := by
    simp [sameShapeB, canon_df_rows_length, canon_df_names_length,
      hp.length_eq, hn]
  have hms : rowMultisetEqB (_as_value_matrix (_canon_df udf))
      (_as_value_matrix (_canon_df gdf)) = true := rowMultisetEqB_of_perm hmat
  by_cases hEq : dfEqualsB (_canon_df udf) (_canon_df gdf) = true
  · simp only [gradeTables]
    rw [if_pos hEq]
  · rw [Bool.not_eq_true] at hEq
    simp only [gradeTables]
    rw [hEq]
    simp [hshape, hms]

/-! ## The comparison core: duplicate rows give partial credit -/

/-- No two adjacent characters of the list are both the space character. -/
def noTwoSpaces : List Char → Bool
  | a :: b :: rest => !(a == ' ' && b == ' ') && noTwoSpaces (b :: rest)
  | _ => true

theorem noTwoSpaces_cons₂ (a b : Char) (r : List Char) :
    noTwoSpaces (a :: b :: r) = (!(a == ' ' && b == ' ') && noTwoSpaces (b :: r)) :=
  rfl

theorem noTwoSpaces_tail {x : Char} {xs : List Char}
    (h : noTwoSpaces (x :: xs) = true) : noTwoSpaces xs = true := by
  cases xs with
  | nil => rfl
  | cons b r =>
    rw [noTwoSpaces_cons₂, Bool.and_eq_true] at h
    exact h.2

theorem noTwoSpaces_cons_nsp {x : Char} {xs : List Char}
    (hx : (x == ' ') = false) (h : noTwoSpaces xs = true) :
    noTwoSpaces (x :: xs) = true := by
  cases xs with
  | nil => rfl
  | cons b r =>
    rw [noTwoSpaces_cons₂, hx]
    simp [h]

theorem noTwoSpaces_space_cons {x : Char} {xs : List Char}
    (hx : (x == ' ') = false) (h : noTwoSpaces (x :: xs) = true) :
    noTwoSpaces (' ' :: x :: xs) = true := by
  rw [noTwoSpaces_cons₂, hx]
  simp [h]

theorem noTwoSpaces_append_left {t l : List Char}
    (h : noTwoSpaces (t ++ l) = true) : noTwoSpaces l = true := by
  induction t with
  | nil => exact h
  | cons x xs ih => exact ih (noTwoSpaces_tail h)

theorem noTwoSpaces_append_right {l t : List Char}
    (h : noTwoSpaces (l ++ t) = true) : noTwoSpaces l = true := by
  induction l with
  | nil => rfl
  | cons x xs ih =>
    cases xs with
    | nil => rfl
    | cons b r =>
      have h2 : noTwoSpaces ((x :: b :: r) ++ t) = true := h
      rw [List.cons_append, List.cons_append, noTwoSpaces_cons₂,
        Bool.and_eq_true] at h2
      rw [noTwoSpaces_cons₂, Bool.and_eq_true]
      exact ⟨h2.1, ih h2.2⟩

theorem noTwoSpaces_stripEndsBy {p : Char → Bool} {l : List Char}
    (h : noTwoSpaces l = true) : noTwoSpaces (stripEndsBy p l) = true := by
  obtain ⟨t, ht⟩ := List.dropWhile_suffix (l := l) (p := p)
  have hA : noTwoSpaces (l.dropWhile p) = true :=
    noTwoSpaces_append_left (ht ▸ h)
  obtain ⟨u, hu⟩ :=
    List.dropWhile_suffix (l := (l.dropWhile p).reverse) (p := p)
  have hAr : l.dropWhile p =
      ((l.dropWhile p).reverse.dropWhile p).reverse ++ u.reverse := by
    have h3 := congrArg List.reverse hu
    rw [List.reverse_append, List.reverse_reverse] at h3
    exact h3.symm
  have h2 : noTwoSpaces
      (((l.dropWhile p).reverse.dropWhile p).reverse ++ u.reverse) = true := by
    rw [← hAr]
    exact hA
  exact noTwoSpaces_append_right h2

/-! ## Equations and membership for the whitespace collapser -/

theorem collapseWsAux_cons (b : Bool) (x : Char) (xs : List Char) :
    collapseWsAux b (x :: xs) =
      if isPySpace x then
        (if b then collapseWsAux true xs else ' ' :: collapseWsAux true xs)
      else x :: collapseWsAux false xs := rfl

theorem collapseWsAux_sp {x : Char} (xs : List Char) (hx : isPySpace x = true) :
    collapseWsAux true (x :: xs) = collapseWsAux true xs ∧
    collapseWsAux false (x :: xs) = ' ' :: collapseWsAux true xs := by
  constructor <;> (rw [collapseWsAux_cons, hx]; simp)

theorem collapseWsAux_nsp (b : Bool) {x : Char} (xs : List Char)
    (hx : isPySpace x = false) :
    collapseWsAux b (x :: xs) = x :: collapseWsAux false xs := by
  rw [collapseWsAux_cons, hx]
  simp

theorem collapseWsAux_mem : ∀ (m : List Char) (b : Bool) {c : Char},
    c ∈ collapseWsAux b m → c = ' ' ∨ (c ∈ m ∧ isPySpace c = false) := by
  intro m
  induction m with
  | nil =>
    intro b c h
    cases b <;> simp [collapseWsAux] at h
  | cons x xs ih =>
    intro b c h
    by_cases hx : isPySpace x = true
    · cases b with
      | true =>
        rw [(collapseWsAux_sp xs hx).1] at h
        rcases ih true h with h1 | ⟨h2, h3⟩
        · exact Or.inl h1
        · exact Or.inr ⟨List.mem_cons_of_mem _ h2, h3⟩
      | false =>
        rw [(collapseWsAux_sp xs hx).2] at h
        rcases List.mem_cons.mp h with rfl | h4
        · exact Or.inl rfl
        · rcases ih true h4 with h1 | ⟨h2, h3⟩
          · exact Or.inl h1
          · exact Or.inr ⟨List.mem_cons_of_mem _ h2, h3⟩
    · rw [Bool.not_eq_true] at hx
      rw [collapseWsAux_nsp b xs hx] at h
      rcases List.mem_cons.mp h with rfl | h4
      · exact Or.inr ⟨List.mem_cons_self _ _, hx⟩
      · rcases ih false h4 with h1 | ⟨h2, h3⟩
        · exact Or.inl h1
        · exact Or.inr ⟨List.mem_cons_of_mem _ h2, h3⟩

theorem collapseWs_noTwo : ∀ m : List Char,
    noTwoSpaces (' ' :: collapseWsAux true m) = true ∧
    noTwoSpaces (collapseWsAux false m) = true := by
  intro m
  induction m with
  | nil => exact ⟨rfl, rfl⟩
  | cons x xs ih =>
    by_cases hx : isPySpace x = true
    · constructor
      · rw [(collapseWsAux_sp xs hx).1]
        exact ih.1
      · rw [(collapseWsAux_sp xs hx).2]
        exact ih.1
    · rw [Bool.not_eq_true] at hx
      have hx2 : (x == ' ') = false := by
        cases hxx : x == ' '
        · rfl
        · exact absurd (by rw [eq_of_beq hxx]; rfl : isPySpace x = true)
            (by rw [hx]; simp)
      constructor
      · rw [collapseWsAux_nsp true xs hx]
        exact noTwoSpaces_space_cons hx2 (noTwoSpaces_cons_nsp hx2 ih.2)
      · rw [collapseWsAux_nsp false xs hx]
        exact noTwoSpaces_cons_nsp hx2 ih.2

/-! ## Strip: membership, boundary characters, idempotence -/

theorem stripEndsBy_mem {p : Char → Bool} {l : List Char} {c : Char}
    (h : c ∈ stripEndsBy p l) : c ∈ l := by
  unfold stripEndsBy at h
  rw [List.mem_reverse] at h
  have h2 := (List.dropWhile_sublist _).subset h
  rw [List.mem_reverse] at h2
  exact (List.dropWhile_sublist _).subset h2

theorem dropWhile_head_not {p : Char → Bool} :
    ∀ {l : List Char} {c : Char} {cs : List Char},
      l.dropWhile p = c :: cs → p c = false := by
  intro l
  induction l with
  | nil =>
    intro c cs h
    simp at h
  | cons x xs ih =>
    intro c cs h
    rw [List.dropWhile_cons] at h
    by_cases hx : p x = true
    · rw [if_pos hx] at h
      exact ih h
    · rw [if_neg hx] at h
      rw [Bool.not_eq_true] at hx
      rw [List.cons.injEq] at h
      rw [← h.1]
      exact hx

theorem dropWhile_getLast {p : Char → Bool} :
    ∀ {l : List Char}, l.dropWhile p ≠ [] →
      (l.dropWhile p).getLast? = l.getLast? := by
  intro l
  induction l with
  | nil =>
    intro h
    simp at h
  | cons x xs ih =>
    intro h
    rw [List.dropWhile_cons] at h ⊢
    by_cases hx : p x = true
    · rw [if_pos hx] at h ⊢
      rw [ih h]
      have hxs : xs ≠ [] := by
        intro h0
        rw [h0] at h
        simp at h
      cases xs with
      | nil => exact absurd rfl hxs
      | cons b bs => rw [List.getLast?_cons_cons]
    · rw [if_neg hx]

theorem stripEndsBy_head_not {p : Char → Bool} {l : List Char} {c : Char}
    {t : List Char} (h : stripEndsBy p l = c :: t) : p c = false := by
  have hR : (stripEndsBy p l).head? = some c := by rw [h]; rfl
  unfold stripEndsBy at hR
  rw [List.head?_reverse] at hR
  have hBne : (l.dropWhile p).reverse.dropWhile p ≠ [] := by
    intro h0
    rw [h0] at hR
    simp at hR
  rw [dropWhile_getLast hBne, List.getLast?_reverse] at hR
  cases hA : l.dropWhile p with
  | nil =>
    rw [hA] at hR
    simp at hR
  | cons a as2 =>
    rw [hA] at hR
    rw [List.head?_cons, Option.some_inj] at hR
    rw [← hR]
    exact dropWhile_head_not hA

theorem stripEndsBy_last_not {p : Char → Bool} {l : List Char} {c : Char}
    (h : (stripEndsBy p l).getLast? = some c) : p c = false := by
  unfold stripEndsBy at h
  rw [List.getLast?_reverse] at h
  cases hB : (l.dropWhile p).reverse.dropWhile p with
  | nil =>
    rw [hB] at h
    simp at h
  | cons b bs =>
    rw [hB] at h
    rw [List.head?_cons, Option.some_inj] at h
    rw [← h]
    exact dropWhile_head_not hB

theorem dropWhile_eq_self_of_head {p : Char → Bool} {l : List Char}
    (h : ∀ c t, l = c :: t → p c = false) : l.dropWhile p = l := by
  cases l with
  | nil => rfl
  | cons x xs =>
    rw [List.dropWhile_cons, if_neg (by rw [h x xs rfl]; simp)]

theorem stripEndsBy_eq_self {p : Char → Bool} {l : List Char}
    (h1 : ∀ c t, l = c :: t → p c = false)
    (h2 : ∀ c, l.getLast? = some c → p c = false) :
    stripEndsBy p l = l := by
  unfold stripEndsBy
  rw [dropWhile_eq_self_of_head h1]
  have h3 : l.reverse.dropWhile p = l.reverse := by
    apply dropWhile_eq_self_of_head
    intro c t hc
    apply h2
    rw [← List.head?_reverse, hc]
    rfl
  rw [h3, List.reverse_reverse]

theorem pyStripL_idem (l : List Char) : pyStripL (pyStripL l) = pyStripL l := by
  unfold pyStripL
  apply stripEndsBy_eq_self
  · intro c t hc
    exact stripEndsBy_head_not hc
  · intro c hc
    exact stripEndsBy_last_not hc

/-! ## Provenance of characters through join and splitlines -/

theorem intercalate_mem {sep : List Char} {L : List (List Char)} {c : Char} :
    c ∈ List.intercalate sep L → c ∈ sep ∨ ∃ w ∈ L, c ∈ w := by
  induction L with
  | nil =>
    intro h
    simp [List.intercalate] at h
  | cons w ws ih =>
    intro h
    cases ws with
    | nil =>
      rw [show List.intercalate sep [w] = w by
        simp [List.intercalate, List.intersperse]] at h
      exact Or.inr ⟨w, List.mem_cons_self _ _, h⟩
    | cons x zs =>
      rw [show List.intercalate sep (w :: x :: zs) =
          w ++ (sep ++ List.intercalate sep (x :: zs)) by
        show (List.intersperse sep (w :: x :: zs)).join = _
        rw [show List.intersperse sep (w :: x :: zs) =
          w :: sep :: List.intersperse sep (x :: zs) from rfl]
        simp [List.intercalate]] at h
      rcases List.mem_append.mp h with h1 | h2
      · exact Or.inr ⟨w, List.mem_cons_self _ _, h1⟩
      · rcases List.mem_append.mp h2 with h3 | h4
        · exact Or.inl h3
        · rcases ih h4 with h5 | ⟨w2, hw2, hc2⟩
          · exact Or.inl h5
          · exact Or.inr ⟨w2, List.mem_cons_of_mem _ hw2, hc2⟩

set_option maxHeartbeats 1600000 in
theorem pySplitlinesAux_cons (c : Char) (rest cur : List Char)
    (h : ∀ r2, c = '\r' → rest = '\n' :: r2 → False) :
    pySplitlinesAux (c :: rest) cur =
      if isLineBound c then cur.reverse :: pySplitlinesAux rest []
      else pySplitlinesAux rest (c :: cur) := by
  rw [pySplitlinesAux.eq_def]
  split
  · rename_i heq
    exact absurd heq (by simp)
  · rename_i r2 heq
    rw [List.cons.injEq] at heq
    exact absurd (h r2 heq.1 heq.2) (fun hf => hf)
  · rename_i heq
    rw [List.cons.injEq] at heq
    rw [heq.1, heq.2]

theorem pySplitlinesAux_mem (l cur : List Char) :
    ∀ w ∈ pySplitlinesAux l cur, ∀ c ∈ w, c ∈ l ∨ c ∈ cur := by
  induction l, cur using pySplitlinesAux.induct with
  | case1 cur hcur =>
    intro w hw c hc
    simp [pySplitlinesAux, hcur] at hw
  | case2 cur hcur =>
    intro w hw c hc
    simp [pySplitlinesAux, hcur] at hw
    subst hw
    exact Or.inr ((List.mem_reverse).mp hc)
  | case3 rest cur ih =>
    intro w hw c hc
    rw [show pySplitlinesAux ('\r' :: '\n' :: rest) cur
        = cur.reverse :: pySplitlinesAux rest [] from rfl] at hw
    rcases List.mem_cons.mp hw with rfl | hw2
    · exact Or.inr ((List.mem_reverse).mp hc)
    · rcases ih w hw2 c hc with h1 | h2
      · exact Or.inl (by simp [h1])
      · simp at h2
  | case4 c0 rest cur hne hlb ih =>
    intro w hw c hc
    rw [pySplitlinesAux_cons c0 rest cur (fun r2 h1 h2 => hne r2 h1 h2),
      if_pos hlb] at hw
    rcases List.mem_cons.mp hw with rfl | hw2
    · exact Or.inr ((List.mem_reverse).mp hc)
    · rcases ih w hw2 c hc with h1 | h2
      · exact Or.inl (List.mem_cons_of_mem _ h1)
      · simp at h2
  | case5 c0 rest cur hne hlb ih =>
    intro w hw c hc
    rw [pySplitlinesAux_cons c0 rest cur (fun r2 h1 h2 => hne r2 h1 h2),
      if_neg hlb] at hw
    rcases ih w hw c hc with h1 | h2
    · exact Or.inl (List.mem_cons_of_mem _ h1)
    · rcases List.mem_cons.mp h2 with rfl | h3
      · exact Or.inl (List.mem_cons_self _ _)
      · exact Or.inr h3

theorem normalize_data (s : String) : (_normalize_sql s).data =
    pyStripL (collapseWs (List.intercalate ['\n']
      ((pySplitlines ((nfkc s.data).filter (fun c => !isZeroWidth c))).map
        pyStripL))) := rfl

theorem norm_chars {s : String} {c : Char}
    (h : c ∈ (_normalize_sql s).data) :
    c = ' ' ∨ (isPySpace c = false ∧ isZeroWidth c = false) := by
  rw [normalize_data] at h
  have h1 := stripEndsBy_mem h
  rcases collapseWsAux_mem _ false h1 with rfl | ⟨h2, h3⟩
  · exact Or.inl rfl
  · right
    refine ⟨h3, ?_⟩
    rcases intercalate_mem h2 with hs | ⟨w, hw, hc⟩
    · rw [List.mem_singleton] at hs
      exact absurd h3 (by rw [hs]; decide)
    · rcases List.mem_map.mp hw with ⟨u, hu, rfl⟩
      have hc2 := stripEndsBy_mem hc
      rcases pySplitlinesAux_mem _ [] u hu c hc2 with h4 | h5
      · rw [List.mem_filter] at h4
        simpa using h4.2
      · simp at h5

/-! ## Definitions following the words of the specification

The definitions in this section are not translations of repository code:
each follows the specification's own description, so that theorems can
compare the code's behavior with the specified behavior. -/

/-- Modelled from the spec: scanner modes for the comment stripper the
specification prescribes for normalize (block and line comments). -/
inductive CMode where
  | top
  | lineC
  | blockC
deriving DecidableEq

/-- Modelled from the spec: fueled comment-stripping scanner.  A line
comment runs to the next line boundary, which is kept; a block comment is
removed with its delimiters. -/
def stripCommentsAux : Nat → CMode → List Char → List Char
  | 0, _, _ => []
  | _, _, [] => []
  | n+1, CMode.top, c :: cs =>
    if c == '-' then
      match cs with
      | c2 :: cs2 =>
        if c2 == '-' then stripCommentsAux n CMode.lineC cs2
        else c :: stripCommentsAux n CMode.top cs
      | [] => [c]
    else if c == '/' then
      match cs with
      | c2 :: cs2 =>
        if c2 == '*' then stripCommentsAux n CMode.blockC cs2
        else c :: stripCommentsAux n CMode.top cs
      | [] => [c]
    else c :: stripCommentsAux n CMode.top cs
  | n+1, CMode.lineC, c :: cs =>
    if isLineBound c then c :: stripCommentsAux n CMode.top cs
    else stripCommentsAux n CMode.lineC cs
  | n+1, CMode.blockC, c :: cs =>
    if c == '*' then
      match cs with
      | c2 :: cs2 =>
        if c2 == '/' then stripCommentsAux n CMode.top cs2
        else stripCommentsAux n CMode.blockC cs
      | [] => []
    else stripCommentsAux n CMode.blockC cs

/-- Modelled from the spec: remove block and line comments. -/
def stripComments (l : List Char) : List Char :=
  stripCommentsAux l.length CMode.top l

/-- Modelled from the spec: the normalize of the specification, which
strips comments between the zero-width removal and the per-line trim. -/
def spec_normalize (s : String) : String :=
  let l0 := nfkc s.data
  let l1 := l0.filter (fun c => !isZeroWidth c)
  let lc := stripComments l1
  let l2 := List.intercalate ['\n'] ((pySplitlines lc).map pyStripL)
  String.mk (pyStripL (collapseWs l2))

/-- Does the pattern lead the list? -/
def leadsWith : List Char → List Char → Bool
  | [], _ => true
  | _ :: _, [] => false
  | a :: xs, b :: ys => a == b && leadsWith xs ys

/-- Fueled search for the pattern; returns what follows its first
occurrence. -/
def findAfterAux (pat : List Char) : Nat → List Char → Option (List Char)
  | 0, l => if leadsWith pat l then some (l.drop pat.length) else none
  | n+1, l =>
    if leadsWith pat l then some (l.drop pat.length)
    else
      match l with
      | [] => none
      | _ :: cs => findAfterAux pat n cs

/-- What follows the first occurrence of the pattern, if any. -/
def findAfter (pat l : List Char) : Option (List Char) :=
  findAfterAux pat l.length l

/-- Does the pattern occur in the list? -/
def containsSub (pat l : List Char) : Bool := (findAfter pat l).isSome

/-- The first whitespace-delimited token after the pattern. -/
def identAfter (pat : List Char) (s : String) : String :=
  match findAfter pat s.data with
  | some rest =>
    String.mk ((rest.dropWhile isPySpace).takeWhile (fun c => !isPySpace c))
  | none => ""

/-- Modelled from the spec: classify an engine diagnostic against the known
patterns (unknown table, unknown column, ambiguous column, foreign-key
violation) and rewrite it into a hint naming the offending identifier,
falling back to a generic check-syntax message. -/
def spec_classify_error (e : String) : String :=
  if containsSub "no such table:".data e.data then
    "Unknown table: " ++ identAfter "no such table:".data e
  else if containsSub "no such column:".data e.data then
    "Unknown column: " ++ identAfter "no such column:".data e
  else if containsSub "ambiguous column name:".data e.data then
    "Ambiguous column: " ++ identAfter "ambiguous column name:".data e
  else if containsSub "FOREIGN KEY constraint failed".data e.data then
    "Foreign key constraint violated"
  else "Please check your SQL syntax"

/-! ## The guard always emits a SELECT-headed statement -/

theorem dropWhile_append_ne {p : Char → Bool} {l : List Char} (l2 : List Char)
    (h : l.dropWhile p ≠ []) :
    (l ++ l2).dropWhile p = l.dropWhile p ++ l2 := by
  induction l with
  | nil => exact absurd rfl h
  | cons x xs ih =>
    rw [List.dropWhile_cons] at h
    rw [List.cons_append, List.dropWhile_cons, List.dropWhile_cons]
    by_cases hx : p x = true
    · rw [if_pos hx, if_pos hx]
      rw [if_pos hx] at h
      exact ih h
    · rw [if_neg hx, if_neg hx, List.cons_append]

theorem matchSelectKw_data (l : List Char) :
    matchSelectKw l =
      ((((l.dropWhile isPySpace).take 6).map asciiLower == "select".data) &&
        (match (l.dropWhile isPySpace).drop 6 with
         | [] => true
         | c :: _ => !isWordChar c)) := rfl

theorem matchSelectKw_append_semi {l : List Char}
    (h : matchSelectKw l = true) : matchSelectKw (l ++ [';']) = true := by
  rw [matchSelectKw_data, Bool.and_eq_true] at h
  obtain ⟨h1, h2⟩ := h
  have hlen : 6 ≤ (l.dropWhile isPySpace).length := by
    have h3 := congrArg List.length (eq_of_beq h1)
    rw [List.length_map, List.length_take] at h3
    have h4 : ("select".data).length = 6 := rfl
    rw [h4] at h3
    have h5 := Nat.min_le_right 6 (l.dropWhile isPySpace).length
    rw [h3] at h5
    exact h5
  have hne : l.dropWhile isPySpace ≠ [] := by
    intro h0
    rw [h0] at hlen
    simp at hlen
  rw [matchSelectKw_data, dropWhile_append_ne _ hne, Bool.and_eq_true]
  constructor
  · rw [List.take_append_of_le_length hlen]
    exact h1
  · rw [List.drop_append_of_le_length hlen]
    cases hd : (l.dropWhile isPySpace).drop 6 with
    | nil =>
      rw [List.nil_append]
      decide
    | cons c cs =>
      rw [List.cons_append]
      rw [hd] at h2
      have h6 : (!isWordChar c) = true := h2
      exact h6

/-! ## Concrete engines and connections for the grading entry point -/

/-- The empty result table. -/
def emptyTbl : Table := { names := [], kinds := [], rows := [] }

/-- An engine that runs every statement, returning the empty table. -/
def demoEnv : ExecEnv :=
  { run := fun _ => Except.ok emptyTbl, txnAfter := fun _ => false }

/-- A fresh connection with no open transaction and an empty trace. -/
def demoConn : Conn := { txnOpen := false, executed := [] }

/-- An engine on which every statement fails with an unknown-table
diagnostic, leaving a transaction open. -/
def envFail : ExecEnv :=
  { run := fun _ => Except.error "no such table: missing1",
    txnAfter := fun _ => true }

/-- A two-row table. -/
def tblTwo : Table :=
  { names := ["a", "b"], kinds := [ColKind.kInt, ColKind.kInt],
    rows := [[Val.vInt 1, Val.vInt 2], [Val.vInt 3, Val.vInt 4]] }

/-- The same two rows in reversed order. -/
def tblTwoRev : Table :=
  { names := ["a", "b"], kinds := [ColKind.kInt, ColKind.kInt],
    rows := [[Val.vInt 3, Val.vInt 4], [Val.vInt 1, Val.vInt 2]] }

/-- An engine returning the reversed table for the candidate marker
statement and the original table otherwise. -/
def envPerm : ExecEnv :=
  { run := fun s => if s = "SELECT u" then Except.ok tblTwoRev
      else Except.ok tblTwo,
    txnAfter := fun _ => false }

/-- Decidable equality of engine results, for concrete checking. -/
instance instDecEqExceptTbl {α β : Type} [DecidableEq α] [DecidableEq β] :
    DecidableEq (Except α β) := fun x y =>
  match x, y with
  | Except.error a, Except.error b =>
    match decEq a b with
    | isTrue h => isTrue (by rw [h])
    | isFalse h => isFalse (fun hc => h (Except.error.inj hc))
  | Except.error _, Except.ok _ => isFalse (fun hc => Except.noConfusion hc)
  | Except.ok _, Except.error _ => isFalse (fun hc => Except.noConfusion hc)
  | Except.ok a, Except.ok b =>
    match decEq a b with
    | isTrue h => isTrue (by rw [h])
    | isFalse h => isFalse (fun hc => h (Except.ok.inj hc))

/-! ## The claims -/

/-- C1 counterexample: the guard of the code rejects a WITH-headed
statement, substituting the sentinel, although the specification says WITH
is accepted; and the grading entry point executes a data-mutating statement
unguarded, because the guard is not applied on the grading path. -/
theorem C1_counterexample :
    _enforce_select_only "WITH t AS (SELECT 1) SELECT 2" = sentinelSql ∧
    _enforce_select_only "DROP TABLE users" = sentinelSql ∧
    _enforce_select_only "SELECT 2" = "SELECT 2;" ∧
    ((evaluate_sql demoEnv "DROP TABLE x" "SELECT 1" demoConn).2.2).executed =
      ["DROP TABLE x", "SELECT 1"] := by
  decide

/-- C1: every string the read-only guard returns begins with the SELECT
keyword (matching the anchored case-insensitive regex of the guard): a
non-SELECT statement, WITH-headed statements included, is replaced by the
SELECT sentinel, so the guard admits only SELECT-headed output.  The guard
runs only on generated SQL; the grading path executes its input without
this guard. -/
theorem C1_guard_emits_select (sql : String) :
    matchSelectKw (_enforce_select_only sql).data = true := by
  show matchSelectKw
    (if matchSelectKw (String.mk (rstripSemi (pyStripL sql.data))).data then
      String.mk (rstripSemi (pyStripL sql.data)) ++ ";"
    else sentinelSql).data = true
  by_cases h :
      matchSelectKw (String.mk (rstripSemi (pyStripL sql.data))).data = true
  · rw [if_pos h]
    show matchSelectKw (rstripSemi (pyStripL sql.data) ++ [';']) = true
    exact matchSelectKw_append_semi h
  · rw [if_neg h]
    decide

/-- C2: the grading entry point leaves the connection trace extended by at
most the first statement of the normalized candidate and the first
statement of the normalized reference, in that order, so no statement after
the first of either input is ever executed; and the first statement of
"SELECT 1; DROP TABLE x;" is exactly "SELECT 1". -/
theorem C2_first_statement_only (env : ExecEnv) (user gold : String)
    (c : Conn) :
    (((evaluate_sql env user gold c).2.2).executed = c.executed ∨
      ((evaluate_sql env user gold c).2.2).executed =
        c.executed ++ [_first_statement (_normalize_sql user)] ∨
      ((evaluate_sql env user gold c).2.2).executed =
        c.executed ++ [_first_statement (_normalize_sql user),
          _first_statement (_normalize_sql gold)]) ∧
    _first_statement (_normalize_sql "SELECT 1; DROP TABLE x;") =
      "SELECT 1;" := by
  constructor
  · by_cases hu : pyStripStr (_first_statement (_normalize_sql user)) = ""
    · left
      rw [evaluate_sql_empty_user env user gold c hu]
    · by_cases hg : pyStripStr (_first_statement (_normalize_sql gold)) = ""
      · left
        rw [evaluate_sql_empty_gold env user gold c hu hg]
      · cases hru : env.run (_first_statement (_normalize_sql user)) with
        | error e =>
          right
          left
          rw [evaluate_sql_cand_fail env user gold c hu hg hru]
          rfl
        | ok udf =>
          cases hrg : env.run (_first_statement (_normalize_sql gold)) with
          | error e =>
            right
            right
            rw [evaluate_sql_ref_fail env user gold c hu hg hru hrg]
            simp [execStmt, rollback]
          | ok gdf =>
            right
            right
            rw [evaluate_sql_exec_ok env user gold c hu hg hru hrg]
            simp [execStmt]
  · decide

/-- C3: when both statements execute and the reference result has the same
column labels, the same column dtypes and the same rows as the candidate
result up to a permutation of the row order, grading yields correct. -/
theorem C3_order_insensitive (env : ExecEnv) (user gold : String) (c : Conn)
    (udf gdf : Table)
    (hu : pyStripStr (_first_statement (_normalize_sql user)) ≠ "")
    (hg : pyStripStr (_first_statement (_normalize_sql gold)) ≠ "")
    (hru : env.run (_first_statement (_normalize_sql user)) = Except.ok udf)
    (hrg : env.run (_first_statement (_normalize_sql gold)) = Except.ok gdf)
    (hn : gdf.names = udf.names) (hk : gdf.kinds = udf.kinds)
    (hp : gdf.rows.Perm udf.rows) :
    (evaluate_sql env user gold c).1 = "correct" := by
  rw [evaluate_sql_exec_ok env user gold c hu hg hru hrg]
  show (gradeTables udf gdf).1 = "correct"
  rw [gradeTables_correct_of_perm udf gdf hn hk hp]

/-- C3 witness: a concrete engine returning the same two rows in reversed
order for the candidate is graded correct. -/
theorem C3_order_insensitive_witness :
    pyStripStr (_first_statement (_normalize_sql "SELECT u")) ≠ "" ∧
    pyStripStr (_first_statement (_normalize_sql "SELECT g")) ≠ "" ∧
    envPerm.run (_first_statement (_normalize_sql "SELECT u")) =
      Except.ok tblTwoRev ∧
    envPerm.run (_first_statement (_normalize_sql "SELECT g")) =
      Except.ok tblTwo ∧
    (evaluate_sql envPerm "SELECT u" "SELECT g" demoConn).1 = "correct" :=
  ⟨by decide, by decide, by decide, by decide,
    C3_order_insensitive envPerm "SELECT u" "SELECT g" demoConn tblTwoRev
      tblTwo (by decide) (by decide) (by decide) (by decide) rfl rfl
      (by decide)⟩

/-- C5 counterexample: a failing candidate execution returns the raw engine
diagnostic behind the fixed prefix, with no classification: the payload
differs from the rewritten hint the specification prescribes for the
unknown-table pattern, whether or not that hint carries the prefix. -/
theorem C5_counterexample :
    (evaluate_sql envFail "SELECT a FROM missing1" "SELECT 1" demoConn).1 =
      "syntax_error" ∧
    (evaluate_sql envFail "SELECT a FROM missing1" "SELECT 1" demoConn).2.1 =
      Payload.msg "SQL execution failed: no such table: missing1" ∧
    spec_classify_error "no such table: missing1" =
      "Unknown table: missing1" ∧
    (evaluate_sql envFail "SELECT a FROM missing1" "SELECT 1" demoConn).2.1 ≠
      Payload.msg (spec_classify_error "no such table: missing1") ∧
    (evaluate_sql envFail "SELECT a FROM missing1" "SELECT 1" demoConn).2.1 ≠
      Payload.msg ("SQL execution failed: " ++
        spec_classify_error "no such table: missing1") := by
  decide

/-- C5: when the candidate statement fails to execute, the verdict is the
syntax-error verdict and the payload is the engine diagnostic verbatim
behind the fixed prefix; no pattern is matched and no hint is
substituted. -/
theorem C5_failure_messages (env : ExecEnv) (user gold : String) (c : Conn)
    (e : String)
    (hu : pyStripStr (_first_statement (_normalize_sql user)) ≠ "")
    (hg : pyStripStr (_first_statement (_normalize_sql gold)) ≠ "")
    (hru : env.run (_first_statement (_normalize_sql user)) =
      Except.error e) :
    (evaluate_sql env user gold c).1 = "syntax_error" ∧
    (evaluate_sql env user gold c).2.1 =
      Payload.msg ("SQL execution failed: " ++ e) := by
  have he := evaluate_sql_cand_fail env user gold c hu hg hru
  exact ⟨by rw [he], by rw [he]⟩

/-- C5 witness: on a concrete failing engine the verdict and the raw
prefixed payload come out as the theorem states. -/
theorem C5_failure_messages_witness :
    pyStripStr (_first_statement (_normalize_sql "SELECT a FROM missing1")) ≠
      "" ∧
    pyStripStr (_first_statement (_normalize_sql "SELECT 1")) ≠ "" ∧
    envFail.run (_first_statement (_normalize_sql "SELECT a FROM missing1")) =
      Except.error "no such table: missing1" ∧
    ((evaluate_sql envFail "SELECT a FROM missing1" "SELECT 1" demoConn).1 =
        "syntax_error" ∧
      (evaluate_sql envFail "SELECT a FROM missing1" "SELECT 1"
        demoConn).2.1 =
        Payload.msg ("SQL execution failed: " ++ "no such table: missing1")) :=
  ⟨by decide, by decide, by decide,
    C5_failure_messages envFail "SELECT a FROM missing1" "SELECT 1" demoConn
      "no such table: missing1" (by decide) (by decide) rfl⟩

/-- C6: whenever the candidate execution fails, or the candidate succeeds
and the reference execution fails, the connection the grading entry point
returns has no open transaction: the failed path rolled back. -/
theorem C6_rollback_on_failure (env : ExecEnv) (user gold : String)
    (c : Conn) (e : String)
    (hu : pyStripStr (_first_statement (_normalize_sql user)) ≠ "")
    (hg : pyStripStr (_first_statement (_normalize_sql gold)) ≠ "")
    (hfail : env.run (_first_statement (_normalize_sql user)) =
        Except.error e ∨
      ∃ udf, env.run (_first_statement (_normalize_sql user)) =
          Except.ok udf ∧
        env.run (_first_statement (_normalize_sql gold)) = Except.error e) :
    ((evaluate_sql env user gold c).2.2).txnOpen = false := by
  rcases hfail with hru | ⟨udf, hru, hrg⟩
  · rw [evaluate_sql_cand_fail env user gold c hu hg hru]
    rfl
  · rw [evaluate_sql_ref_fail env user gold c hu hg hru hrg]
    rfl

/-- C6 witness: a concrete failing engine that opens transactions still
hands back a connection with the transaction closed. -/
theorem C6_rollback_on_failure_witness :
    pyStripStr (_first_statement (_normalize_sql "SELECT a FROM missing1")) ≠
      "" ∧
    pyStripStr (_first_statement (_normalize_sql "SELECT 1")) ≠ "" ∧
    ((evaluate_sql envFail "SELECT a FROM missing1" "SELECT 1"
      { txnOpen := true, executed := [] }).2.2).txnOpen = false :=
  ⟨by decide, by decide,
    C6_rollback_on_failure envFail "SELECT a FROM missing1" "SELECT 1"
      { txnOpen := true, executed := [] } "no such table: missing1"
      (by decide) (by decide) (Or.inl rfl)⟩

/-- C7 counterexample: normalization keeps a line comment verbatim, while
the normalize the specification describes strips it: the code performs no
comment stripping. -/
theorem C7_counterexample :
    _normalize_sql "SELECT 1 -- drop comment" = "SELECT 1 -- drop comment" ∧
    spec_normalize "SELECT 1 -- drop comment" = "SELECT 1" ∧
    _normalize_sql "SELECT 1 -- drop comment" ≠
      spec_normalize "SELECT 1 -- drop comment" := by
  decide

/-- C7: the normalized output carries no zero-width character, every
whitespace character of it is the plain space, no two adjacent characters
are both spaces (whitespace runs are collapsed), and the output is its own
strip (no leading or trailing whitespace); comments are not removed. -/
theorem C7_normalize_shape (s : String) :
    ((_normalize_sql s).data.all (fun c => !isZeroWidth c)) = true ∧
    ((_normalize_sql s).data.all (fun c => !isPySpace c || c == ' ')) = true ∧
    noTwoSpaces (_normalize_sql s).data = true ∧
    pyStripL (_normalize_sql s).data = (_normalize_sql s).data := by
  refine ⟨?_, ?_, ?_, ?_⟩
  · refine List.all_eq_true.mpr ?_
    intro c hc
    rcases norm_chars hc with rfl | ⟨_, hz⟩
    · decide
    · simp [hz]
  · refine List.all_eq_true.mpr ?_
    intro c hc
    rcases norm_chars hc with rfl | ⟨hp, _⟩
    · decide
    · simp [hp]
  · rw [normalize_data]
    exact noTwoSpaces_stripEndsBy (collapseWs_noTwo _).2
  · rw [normalize_data]
    exact pyStripL_idem _

/-- C8: normalization is not idempotent.  On the string holding the letter
a, a zero-width space and the combining acute accent, the first pass leaves
the accent uncomposed (the zero-width character blocks composition and is
removed only after the NFKC step), and the second pass composes it into the
precomposed letter, so normalize of normalize differs from normalize. -/
theorem C8_normalize_not_idempotent :
    _normalize_sql (_normalize_sql
      (String.mk ['a', Char.ofNat 0x200B, Char.ofNat 0x301])) ≠
      _normalize_sql (String.mk ['a', Char.ofNat 0x200B, Char.ofNat 0x301]) ∧
    _normalize_sql (String.mk ['a', Char.ofNat 0x200B, Char.ofNat 0x301]) =
      String.mk ['a', Char.ofNat 0x301] ∧
    _normalize_sql (_normalize_sql
      (String.mk ['a', Char.ofNat 0x200B, Char.ofNat 0x301])) =
      String.mk [Char.ofNat 0xE1] := by
  decide

/-- C10: the grading entry point depends on the stored reference only
through the normalize-then-first-statement transform: replacing the
reference by any string with the same normalized first statement leaves the
whole grading result, payload and connection included, unchanged — so
statements after the first in a stored reference are never seen. -/
theorem C10_gold_truncation (env : ExecEnv) (user gold gold2 : String)
    (c : Conn)
    (h : _first_statement (_normalize_sql gold2) =
      _first_statement (_normalize_sql gold)) :
    evaluate_sql env user gold2 c = evaluate_sql env user gold c := by
  unfold evaluate_sql
  rw [h]

/-- C10 witness: a reference with a trailing second statement grades
exactly as the reference truncated to its first statement. -/
theorem C10_gold_truncation_witness :
    _first_statement (_normalize_sql "SELECT 1; DROP TABLE x;") =
      _first_statement (_normalize_sql "SELECT 1;") ∧
    evaluate_sql demoEnv "SELECT 2" "SELECT 1; DROP TABLE x;" demoConn =
      evaluate_sql demoEnv "SELECT 2" "SELECT 1;" demoConn :=
  ⟨by decide,
    C10_gold_truncation demoEnv "SELECT 2" "SELECT 1;"
      "SELECT 1; DROP TABLE x;" demoConn (by decide)⟩
